import Mathlib

/-!
Verification development for the real-time messaging and social-graph
subsystem of the server-side repository: a shallow embedding of the
friend-request state machine, conversation directory, message ledgers and
the two delivery entry points (HTTP controllers and socket handlers),
together with theorems settling the specified properties.

Document ids, user ids and timestamps are modelled as naturals; the Mongo
collections are modelled as lists kept in insertion (natural) order, with
findOne returning the first matching document. The ordered unique index of
friendRequestSchema on (sender, receiver) is modelled by an explicit
duplicate-key check at save time.
-/

namespace ServerSide

/-! ## Sorting helper: sort descending by a numeric key
Models the Mongo sort({field: -1}) used by the model statics. -/

/-- Insert an element into a list sorted descending by key, keeping stable
order for equal keys. -/
def insertDescBy (key : α → Nat) (a : α) : List α → List α
  | [] => [a]
  | b :: l => if key b < key a then a :: b :: l else b :: insertDescBy key a l

/-- Sort a list descending by a numeric key. -/
def sortDescBy (key : α → Nat) : List α → List α
  | [] => []
  | a :: l => insertDescBy key a (sortDescBy key l)

/-! ## Friend request data model (src/models/FriendRequest.js) -/

/-- Status enum of friendRequestSchema. -/
inductive FRStatus
  | pending
  | accepted
  | declined
  | cancelled
deriving DecidableEq, Repr

/-- A friend-request document: generated id, sender, receiver, status and
timestamps. -/
structure FRequest where
  rid : Nat
  sender : Nat
  receiver : Nat
  status : FRStatus
  createdAt : Nat
  updatedAt : Nat
deriving DecidableEq, Repr

/-- A conversation document (src/models/Conversation.js): participants are
stored canonically ordered (the source sorts the pair before saving). -/
structure Conv where
  cid : Nat
  pLow : Nat
  pHigh : Nat
  lastMessage : Option Nat
  lastMessageAt : Nat
deriving DecidableEq, Repr

/-- A private message document (src/models/PrivateMessage.js), text type. -/
structure PMsg where
  mid : Nat
  sender : Nat
  conversation : Nat
  content : String
  timestamp : Nat
deriving DecidableEq, Repr

/-- A channel (general chat) message document (src/models/Message.js),
text type. -/
structure ChanMsg where
  mid : Nat
  sender : Nat
  senderName : String
  content : String
  timestamp : Nat
deriving DecidableEq, Repr

/-- The persistent state: the four collections in insertion order, the
id generators, the set of existing users and the clock. -/
structure DB where
  users : List Nat
  requests : List FRequest
  convs : List Conv
  pmsgs : List PMsg
  chanMsgs : List ChanMsg
  nextRid : Nat
  nextCid : Nat
  nextMid : Nat
  now : Nat
deriving DecidableEq, Repr

/-! ## FriendRequest statics (src/models/FriendRequest.js) -/

/-- Does a friend-request document lie between users a and b (either
direction)? Mirrors the $or query of getExistingRelationship. -/
def betweenUsers (q : FRequest) (a b : Nat) : Bool :=
  (q.sender == a && q.receiver == b) || (q.sender == b && q.receiver == a)

/-- FriendRequest.getExistingRelationship: findOne on the two-direction $or;
findOne returns the first document in natural (insertion) order. -/
def getExistingRelationship (reqs : List FRequest) (senderId receiverId : Nat) :
    Option FRequest :=
  reqs.find? (fun q => betweenUsers q senderId receiverId)

/-- FriendRequest.findById. -/
def findRequestById (reqs : List FRequest) (requestId : Nat) : Option FRequest :=
  reqs.find? (fun q => q.rid == requestId)

/-- Saving a modified document: replace the document with the same _id. -/
def saveRequest (reqs : List FRequest) (q : FRequest) : List FRequest :=
  reqs.map (fun p => if p.rid == q.rid then q else p)

/-- FriendRequest.findFriends: all accepted documents involving the user,
sorted by updatedAt descending. -/
def findFriends (reqs : List FRequest) (userId : Nat) : List FRequest :=
  sortDescBy (fun q => q.updatedAt)
    (reqs.filter (fun q => (q.sender == userId || q.receiver == userId)
      && q.status == FRStatus.accepted))

/-! ## Friend controller (src/controllers/friendController.js) -/

/-- Outcome of a friend-controller call, mirroring the JSON envelopes the
controller writes (error kind per branch). -/
inductive FrResult
  | ok (q : FRequest)
  | okMsg
  | invalidRequest
  | notFound
  | forbidden
  | invalidStatus
  | requestExistsMine
  | requestExistsTheirs
  | alreadyFriends
  | duplicateRequest
deriving DecidableEq, Repr

/-- friendRequest.save() on a fresh pending document, together with the
duplicate-key catch block: the save fails with E11000 (the unique index of
the schema on the ordered pair (sender, receiver)) exactly when a document
with the same ordered pair already exists. -/
def trySaveNewRequest (db : DB) (senderId receiverId : Nat) : FrResult × DB :=
  if db.requests.any (fun p => p.sender == senderId && p.receiver == receiverId)
  then (FrResult.duplicateRequest, db)
  else
    let fr : FRequest :=
      ⟨db.nextRid, senderId, receiverId, FRStatus.pending, db.now, db.now⟩
    (FrResult.ok fr, { db with requests := db.requests ++ [fr],
                               nextRid := db.nextRid + 1 })

/-- sendFriendRequest: self check, receiver existence check, both-direction
relationship lookup conflicting on pending/accepted, then save. A declined
or cancelled existing record does not conflict: the controller falls
through to the save. -/
def sendFriendRequest (db : DB) (senderId receiverId : Nat) : FrResult × DB :=
  if senderId == receiverId then (FrResult.invalidRequest, db)
  else if !(db.users.contains receiverId) then (FrResult.notFound, db)
  else
    match getExistingRelationship db.requests senderId receiverId with
    | some q =>
      if q.status == FRStatus.pending then
        if q.sender == senderId then (FrResult.requestExistsMine, db)
        else (FrResult.requestExistsTheirs, db)
      else if q.status == FRStatus.accepted then (FrResult.alreadyFriends, db)
      else trySaveNewRequest db senderId receiverId
    | none => trySaveNewRequest db senderId receiverId

/-- acceptFriendRequest: not-found, receiver-only, pending-only checks, then
transition to accepted stamping updatedAt. -/
def acceptFriendRequest (db : DB) (userId requestId : Nat) : FrResult × DB :=
  match findRequestById db.requests requestId with
  | none => (FrResult.notFound, db)
  | some q =>
    if !(q.receiver == userId) then (FrResult.forbidden, db)
    else if !(q.status == FRStatus.pending) then (FrResult.invalidStatus, db)
    else
      let q' := { q with status := FRStatus.accepted, updatedAt := db.now }
      (FrResult.ok q', { db with requests := saveRequest db.requests q' })

/-- declineFriendRequest: not-found and receiver-only checks, then sets the
status to declined stamping updatedAt. The source has no check that the
current status is pending. -/
def declineFriendRequest (db : DB) (userId requestId : Nat) : FrResult × DB :=
  match findRequestById db.requests requestId with
  | none => (FrResult.notFound, db)
  | some q =>
    if !(q.receiver == userId) then (FrResult.forbidden, db)
    else
      let q' := { q with status := FRStatus.declined, updatedAt := db.now }
      (FrResult.okMsg, { db with requests := saveRequest db.requests q' })

/-- cancelFriendRequest: not-found and sender-only checks, then sets the
status to cancelled stamping updatedAt. The source has no check that the
current status is pending. -/
def cancelFriendRequest (db : DB) (userId requestId : Nat) : FrResult × DB :=
  match findRequestById db.requests requestId with
  | none => (FrResult.notFound, db)
  | some q =>
    if !(q.sender == userId) then (FrResult.forbidden, db)
    else
      let q' := { q with status := FRStatus.cancelled, updatedAt := db.now }
      (FrResult.okMsg, { db with requests := saveRequest db.requests q' })

/-- getFriends: map each accepted friendship of the user to the other
participant (the controller projects populated user fields; the id is what
the claims are about). -/
def getFriends (db : DB) (userId : Nat) : List Nat :=
  (findFriends db.requests userId).map
    (fun q => if q.sender == userId then q.receiver else q.sender)

/-- removeFriend: findOne on the accepted relationship in either direction,
then findByIdAndDelete on the found document. -/
def removeFriend (db : DB) (userId friendId : Nat) : FrResult × DB :=
  match db.requests.find? (fun q =>
      (q.sender == userId && q.receiver == friendId && q.status == FRStatus.accepted)
      || (q.sender == friendId && q.receiver == userId && q.status == FRStatus.accepted)) with
  | none => (FrResult.notFound, db)
  | some q =>
    (FrResult.okMsg,
      { db with requests := db.requests.eraseP (fun p => p.rid == q.rid) })

/-! ## Conversation statics (src/models/Conversation.js) -/

/-- Conversation.findOrCreate: canonicalize the pair (the source sorts the
two ids) and find the conversation, creating it when absent. Returns the
conversation together with the possibly extended state. -/
def convFindOrCreate (db : DB) (userId1 userId2 : Nat) : Conv × DB :=
  let lo := min userId1 userId2
  let hi := max userId1 userId2
  match db.convs.find? (fun c => c.pLow == lo && c.pHigh == hi) with
  | some c => (c, db)
  | none =>
    let c : Conv := ⟨db.nextCid, lo, hi, none, db.now⟩
    (c, { db with convs := db.convs ++ [c], nextCid := db.nextCid + 1 })

/-- Conversation.findBetween: find without creating. -/
def convFindBetween (db : DB) (userId1 userId2 : Nat) : Option Conv :=
  let lo := min userId1 userId2
  let hi := max userId1 userId2
  db.convs.find? (fun c => c.pLow == lo && c.pHigh == hi)

/-- Saving a modified conversation document: replace by _id. -/
def saveConv (convs : List Conv) (c : Conv) : List Conv :=
  convs.map (fun p => if p.cid == c.cid then c else p)

/-! ## PrivateMessage statics (src/models/PrivateMessage.js) -/

/-- PrivateMessage.getMessagesForConversation: filter by conversation,
sort timestamp descending, limit. -/
def getMessagesForConversation (msgs : List PMsg) (conversationId : Nat)
    (limit : Nat) : List PMsg :=
  (sortDescBy (fun m => m.timestamp)
    (msgs.filter (fun m => m.conversation == conversationId))).take limit

/-! ## Message statics (src/models/Message.js) -/

/-- Message.getRecentMessages: sort timestamp descending, limit. -/
def getRecentMessages (msgs : List ChanMsg) (limit : Nat) : List ChanMsg :=
  (sortDescBy (fun m => m.timestamp) msgs).take limit

/-! ## Query-limit parsing (routes/chat.js and privateMessageController.js)

The routes compute the limit as parseInt(req.query.limit) || 50. A missing
parameter or a non-numeric string parses to NaN; NaN and 0 are falsy, so
the JS or-expression replaces them with the default. The parse outcome is
modelled as an Option Int with none standing for missing-or-NaN. -/

/-- The JS expression parseInt(q) || d on the modelled parse outcome. -/
def jsOrDefault (q : Option Int) (d : Int) : Int :=
  match q with
  | none => d
  | some n => if n == 0 then d else n

/-! ## Private message controller (src/controllers/privateMessageController.js) -/

/-- Outcome of a private-message controller call. -/
inductive PmResult
  | ok (m : PMsg)
  | okMessages (msgs : List PMsg)
  | validationError
  | forbidden
deriving DecidableEq, Repr

/-- Socket.IO emissions observable from the handlers: an emit on the
originating socket only, or an emit to a per-user room via io.to. -/
inductive SockEmit
  | errToSocket (msg : String)
  | privToSocket (m : PMsg)
  | privToRoom (room : Nat) (m : PMsg)
  | chanBroadcast (room : String) (m : ChanMsg)
deriving DecidableEq, Repr

/-- sendPrivateMessage (HTTP): content validation for text messages,
friendship check against getExistingRelationship, conversation
find-or-create, message save, conversation last-message update. The
controller performs no Socket.IO emission (the source never touches io),
recorded by the always-empty emission list. -/
def sendPrivateMessage (db : DB) (senderId receiverId : Nat) (content : String) :
    PmResult × DB × List SockEmit :=
  if content == "" then (PmResult.validationError, db, [])
  else
    match getExistingRelationship db.requests senderId receiverId with
    | none => (PmResult.forbidden, db, [])
    | some q =>
      if !(q.status == FRStatus.accepted) then (PmResult.forbidden, db, [])
      else
        let (conv, db1) := convFindOrCreate db senderId receiverId
        let m : PMsg := ⟨db1.nextMid, senderId, conv.cid, content, db1.now⟩
        let db2 := { db1 with pmsgs := db1.pmsgs ++ [m], nextMid := db1.nextMid + 1 }
        let conv' := { conv with lastMessage := some m.mid, lastMessageAt := db2.now }
        (PmResult.ok m, { db2 with convs := saveConv db2.convs conv' }, [])

/-- getConversationMessages: friendship check, findBetween, then the
most-recent page reversed to chronological order for the response. -/
def getConversationMessages (db : DB) (userId otherUserId : Nat)
    (limitQ : Option Int) : PmResult :=
  match getExistingRelationship db.requests userId otherUserId with
  | none => PmResult.forbidden
  | some q =>
    if !(q.status == FRStatus.accepted) then PmResult.forbidden
    else
      match convFindBetween db userId otherUserId with
      | none => PmResult.okMessages []
      | some conv =>
        let limit := jsOrDefault limitQ 50
        PmResult.okMessages
          ((getMessagesForConversation db.pmsgs conv.cid limit.natAbs).reverse)

/-! ## Socket handlers (src/socket/handlers.js) -/

/-- handleSendPrivateMessage: validation, friendship check, conversation
find-or-create, save, conversation update; then the handler emits the
persisted record to the originating socket (socket.emit) and to the
receiver per-user room (io.to(receiverId)). -/
def handleSendPrivateMessage (db : DB) (senderId receiverId : Nat)
    (content : String) : DB × List SockEmit :=
  if content == "" then (db, [SockEmit.errToSocket "Invalid message data"])
  else
    match getExistingRelationship db.requests senderId receiverId with
    | none => (db, [SockEmit.errToSocket "You can only message your friends"])
    | some q =>
      if !(q.status == FRStatus.accepted) then
        (db, [SockEmit.errToSocket "You can only message your friends"])
      else
        let (conv, db1) := convFindOrCreate db senderId receiverId
        let m : PMsg := ⟨db1.nextMid, senderId, conv.cid, content, db1.now⟩
        let db2 := { db1 with pmsgs := db1.pmsgs ++ [m], nextMid := db1.nextMid + 1 }
        let conv' := { conv with lastMessage := some m.mid, lastMessageAt := db2.now }
        ({ db2 with convs := saveConv db2.convs conv' },
         [SockEmit.privToSocket m, SockEmit.privToRoom receiverId m])

/-- handleSendMessage: validation of data.content, message save (the
storage outcome is an oracle argument: false models the save call
throwing), then broadcast of the persisted record to the general room.
A failed save is caught and only an error is emitted to the socket. -/
def handleSendMessage (db : DB) (senderId : Nat) (senderName : String)
    (content : Option String) (saveOk : Bool) : DB × List SockEmit :=
  match content with
  | none => (db, [SockEmit.errToSocket "Invalid message content"])
  | some c =>
    if c == "" then (db, [SockEmit.errToSocket "Invalid message content"])
    else if !saveOk then (db, [SockEmit.errToSocket "Failed to send message"])
    else
      let m : ChanMsg := ⟨db.nextMid, senderId, senderName, c, db.now⟩
      ({ db with chanMsgs := db.chanMsgs ++ [m], nextMid := db.nextMid + 1 },
       [SockEmit.chanBroadcast "general" m])

/-! ## Chat routes (src/routes/chat.js) -/

/-- Outcome of the POST /messages route. -/
inductive ChatPostResult
  | created (m : ChanMsg)
  | validationError
  | serverError
deriving DecidableEq, Repr

/-- POST /messages: validation (non-empty trimmed content, max length 1000),
save (oracle as in the socket handler), then emission to the general room
when the Socket.IO instance is available. -/
def postMessagesRoute (db : DB) (senderId : Nat) (senderName : String)
    (content : String) (saveOk ioPresent : Bool) :
    ChatPostResult × DB × List SockEmit :=
  if content.trim == "" then (ChatPostResult.validationError, db, [])
  else if content.length > 1000 then (ChatPostResult.validationError, db, [])
  else if !saveOk then (ChatPostResult.serverError, db, [])
  else
    let m : ChanMsg := ⟨db.nextMid, senderId, senderName, content.trim, db.now⟩
    let db' := { db with chanMsgs := db.chanMsgs ++ [m], nextMid := db.nextMid + 1 }
    if ioPresent then (ChatPostResult.created m, db', [SockEmit.chanBroadcast "general" m])
    else (ChatPostResult.created m, db', [])

/-- GET /messages: limit := parseInt(req.query.limit) || 50, fetch the most
recent page, reverse to show oldest first. -/
def getMessagesRoute (db : DB) (limitQ : Option Int) : List ChanMsg :=
  (getRecentMessages db.chanMsgs (jsOrDefault limitQ 50).natAbs).reverse

/-! ## Operation sequences and reachable states

The controllers above are the state transformers; an operation sequence
applies them with arbitrary authenticated actors and arguments. The clock
advances after every operation, modelling strictly increasing wall-clock
stamps across requests. -/

/-- One inbound operation against the store. -/
inductive Op
  | send (senderId receiverId : Nat)
  | accept (userId requestId : Nat)
  | decline (userId requestId : Nat)
  | cancel (userId requestId : Nat)
  | unfriend (userId friendId : Nat)
  | pmsg (senderId receiverId : Nat) (content : String)
deriving DecidableEq, Repr

/-- Advance the clock (each operation happens at a fresh later instant). -/
def tick (db : DB) : DB := { db with now := db.now + 1 }

/-- Apply one operation: run the corresponding controller and advance the
clock. Failed calls leave the collections unchanged by construction. -/
def applyOp (db : DB) (op : Op) : DB :=
  match op with
  | Op.send s r => tick (sendFriendRequest db s r).2
  | Op.accept u rid => tick (acceptFriendRequest db u rid).2
  | Op.decline u rid => tick (declineFriendRequest db u rid).2
  | Op.cancel u rid => tick (cancelFriendRequest db u rid).2
  | Op.unfriend u f => tick (removeFriend db u f).2
  | Op.pmsg s r c => tick (sendPrivateMessage db s r c).2.1

/-- The empty store over a given user population. -/
def initDB (users : List Nat) : DB :=
  ⟨users, [], [], [], [], 0, 0, 0, 0⟩

/-- Run an operation sequence from the empty store. -/
def runOps (users : List Nat) (ops : List Op) : DB :=
  ops.foldl applyOp (initDB users)

/-- A store state is reachable when some operation sequence over some user
population produces it. -/
def Reachable (db : DB) : Prop :=
  ∃ users ops, db = runOps users ops

/-! ## Lemmas about the descending sort -/

theorem insertDescBy_perm (key : α → Nat) (a : α) (l : List α) :
    (insertDescBy key a l).Perm (a :: l) := by
  induction l with
  | nil => simp [insertDescBy]
  | cons b l ih =>
    simp only [insertDescBy]
    split
    · exact List.Perm.refl _
    · exact (ih.cons b).trans (List.Perm.swap a b l)

theorem sortDescBy_perm (key : α → Nat) (l : List α) :
    (sortDescBy key l).Perm l := by
  induction l with
  | nil => exact List.Perm.refl _
  | cons a l ih =>
    exact (insertDescBy_perm key a (sortDescBy key l)).trans (ih.cons a)

theorem insertDescBy_append (key : α → Nat) (a : α) (m : List α)
    (h : ∀ b ∈ m, key a < key b) : insertDescBy key a m = m ++ [a] := by
  induction m with
  | nil => rfl
  | cons b m ih =>
    simp only [insertDescBy]
    have hb : key a < key b := h b (List.mem_cons_self b m)
    rw [if_neg (by omega)]
    simp [ih (fun c hc => h c (List.mem_cons_of_mem b hc))]

theorem sortDescBy_of_strictIncr (key : α → Nat) (l : List α)
    (h : l.Pairwise (fun x y => key x < key y)) :
    sortDescBy key l = l.reverse := by
  induction l with
  | nil => rfl
  | cons a l ih =>
    rcases List.pairwise_cons.mp h with ⟨ha, hl⟩
    simp only [sortDescBy, ih hl]
    rw [insertDescBy_append key a l.reverse
      (fun b hb => ha b (List.mem_reverse.mp hb))]
    simp

theorem reverse_take_reverse (l : List α) (k : Nat) :
    (l.reverse.take k).reverse = l.drop (l.length - k) := by
  rw [← List.rtake_eq_reverse_take_reverse]
  rfl

/-! ## Claim C7: broadcast fan-out only after a successful ledger write -/

/-- Claim C7: in the broadcast flow (the sendMessage socket handler and the
POST /messages route), any fan-out of a channel message to the general room
happens only when the ledger write succeeded and the broadcast record is
persisted in the post-state ledger; when the ledger write fails no
broadcast emission occurs at all. -/
theorem claim_C7 (db : DB) (senderId : Nat) (senderName : String)
    (content : Option String) (rawContent : String) (saveOk ioPresent : Bool) :
    (∀ room m,
        SockEmit.chanBroadcast room m ∈
          (handleSendMessage db senderId senderName content saveOk).2 →
        saveOk = true ∧
        m ∈ (handleSendMessage db senderId senderName content saveOk).1.chanMsgs) ∧
    (saveOk = false →
        ∀ room m, SockEmit.chanBroadcast room m ∉
          (handleSendMessage db senderId senderName content saveOk).2) ∧
    (∀ room m,
        SockEmit.chanBroadcast room m ∈
          (postMessagesRoute db senderId senderName rawContent saveOk ioPresent).2.2 →
        saveOk = true ∧
        m ∈ (postMessagesRoute db senderId senderName rawContent saveOk ioPresent).2.1.chanMsgs) ∧
    (saveOk = false →
        ∀ room m, SockEmit.chanBroadcast room m ∉
          (postMessagesRoute db senderId senderName rawContent saveOk ioPresent).2.2) := by
  unfold handleSendMessage postMessagesRoute
  refine ⟨?_, ?_, ?_, ?_⟩
  · intro room m hm
    cases content with
    | none => simp at hm
    | some c =>
      by_cases hc : c == ""
      · simp [hc] at hm
      · cases saveOk with
        | false => simp [hc] at hm
        | true =>
          simp only [hc, Bool.false_eq_true, if_false, Bool.not_true] at hm ⊢
          simp at hm
          simp [hm]
  · intro hs room m hm
    cases content with
    | none => simp at hm
    | some c =>
      by_cases hc : c == "" <;> simp [hc, hs] at hm
  · intro room m hm
    by_cases h1 : rawContent.trim == ""
    · simp [h1] at hm
    · by_cases h2 : rawContent.length > 1000
      · simp [h1, h2] at hm
      · cases saveOk with
        | false => simp [h1, h2] at hm
        | true =>
          cases ioPresent with
          | false => simp [h1, h2] at hm
          | true =>
            simp only [h1, h2, Bool.false_eq_true, if_false, if_true,
              Bool.not_true, Bool.not_false, if_neg, ite_true] at hm ⊢
            simp at hm
            simp [h1, h2, hm]
  · intro hs room m hm
    by_cases h1 : rawContent.trim == ""
    · simp [h1] at hm
    · by_cases h2 : rawContent.length > 1000 <;> simp [h1, h2, hs] at hm

/-- Claim C7 witness: a concrete successful send whose broadcast record is
in the post-state ledger. -/
theorem claim_C7_witness :
    (⟨0, 7, "alice", "hi", 0⟩ : ChanMsg) ∈
      (handleSendMessage (initDB []) 7 "alice" (some "hi") true).1.chanMsgs :=
  ((claim_C7 (initDB []) 7 "alice" (some "hi") "x" true true).1
    "general" ⟨0, 7, "alice", "hi", 0⟩ (by decide)).2

/-! ## Claim C8: delivery of a successful private message -/

/-- Claim C8 counterexample: in a reachable state where users 1 and 2 are
friends, the socket-originated send succeeds and emits exactly one emit on
the originating socket and one to the receiver room 2: no emission to the
sender per-user room 1 ever happens, so the other connected sessions of
the sender do not observe the message; and the HTTP-originated send
performs no socket emission at all. -/
theorem claim_C8_counterexample :
    (handleSendPrivateMessage (runOps [1, 2] [Op.send 1 2, Op.accept 2 0]) 1 2 "hi").2 =
      [SockEmit.privToSocket ⟨0, 1, 0, "hi", 2⟩,
       SockEmit.privToRoom 2 ⟨0, 1, 0, "hi", 2⟩] ∧
    SockEmit.privToRoom 1 ⟨0, 1, 0, "hi", 2⟩ ∉
      (handleSendPrivateMessage (runOps [1, 2] [Op.send 1 2, Op.accept 2 0]) 1 2 "hi").2 ∧
    (sendPrivateMessage (runOps [1, 2] [Op.send 1 2, Op.accept 2 0]) 1 2 "hi").2.2 = [] :=
  ⟨by decide, by decide, by decide⟩

/-- Claim C8 amended: on a successful socket-originated private send, the
persisted record (with its server-assigned id and timestamp) is delivered
to the receiver per-user room and echoed back to the originating socket
only — not to the sender per-user room — and the HTTP-originated send
persists the record but performs no socket delivery at all. -/
theorem claim_C8_amended (db : DB) (s r : Nat) (content : String) (q : FRequest)
    (hc : content ≠ "")
    (hrel : getExistingRelationship db.requests s r = some q)
    (hacc : q.status = FRStatus.accepted) :
    (handleSendPrivateMessage db s r content).2 =
      [SockEmit.privToSocket ⟨db.nextMid, s, (convFindOrCreate db s r).1.cid, content, db.now⟩,
       SockEmit.privToRoom r ⟨db.nextMid, s, (convFindOrCreate db s r).1.cid, content, db.now⟩] ∧
    (⟨db.nextMid, s, (convFindOrCreate db s r).1.cid, content, db.now⟩ : PMsg) ∈
      (handleSendPrivateMessage db s r content).1.pmsgs ∧
    (sendPrivateMessage db s r content).1 =
      PmResult.ok ⟨db.nextMid, s, (convFindOrCreate db s r).1.cid, content, db.now⟩ ∧
    (sendPrivateMessage db s r content).2.2 = [] := by
  have hc' : (content == "") = false := by
    simp only [beq_eq_false_iff_ne, ne_eq]; exact hc
  have hnow : (convFindOrCreate db s r).2.now = db.now := by
    unfold convFindOrCreate
    cases h : db.convs.find? (fun c => c.pLow == min s r && c.pHigh == max s r) <;> simp [h]
  have hmid : (convFindOrCreate db s r).2.nextMid = db.nextMid := by
    unfold convFindOrCreate
    cases h : db.convs.find? (fun c => c.pLow == min s r && c.pHigh == max s r) <;> simp [h]
  unfold handleSendPrivateMessage sendPrivateMessage
  rw [hc', hrel]
  simp [hacc, hnow, hmid]

/-- Claim C8 amended witness: the amended characterization at the concrete
friendly state of the counterexample. -/
theorem claim_C8_amended_witness :
    (handleSendPrivateMessage (runOps [1, 2] [Op.send 1 2, Op.accept 2 0]) 2 1 "yo").2 =
      [SockEmit.privToSocket ⟨0, 2, 0, "yo", 2⟩,
       SockEmit.privToRoom 1 ⟨0, 2, 0, "yo", 2⟩] :=
  (claim_C8_amended (runOps [1, 2] [Op.send 1 2, Op.accept 2 0]) 2 1 "yo"
    ⟨0, 1, 2, FRStatus.accepted, 0, 1⟩ (by decide) (by decide) (by decide)).1

/-! ## Claim C9: history queries return the newest page, newest first -/

/-- Claim C9: when the stored timestamps strictly increase along insertion
order, getRecentMessages and getMessagesForConversation return the most
recent limit records (or fewer when fewer exist) in strictly descending
time order, and reversing the returned sequence yields exactly the
insertion-order suffix, i.e. strict chronological order. -/
theorem claim_C9 (msgs : List ChanMsg) (pms : List PMsg) (cid : Nat) (k : Nat)
    (hm : msgs.Pairwise (fun x y => x.timestamp < y.timestamp))
    (hp : pms.Pairwise (fun x y => x.timestamp < y.timestamp)) :
    (getRecentMessages msgs k).length = min k msgs.length ∧
    (getRecentMessages msgs k).Pairwise (fun x y => y.timestamp < x.timestamp) ∧
    (getRecentMessages msgs k).reverse = msgs.drop (msgs.length - k) ∧
    (getMessagesForConversation pms cid k).Pairwise
      (fun x y => y.timestamp < x.timestamp) ∧
    (getMessagesForConversation pms cid k).reverse =
      (pms.filter (fun m => m.conversation == cid)).drop
        ((pms.filter (fun m => m.conversation == cid)).length - k) := by
  have hrec : getRecentMessages msgs k = msgs.reverse.take k := by
    unfold getRecentMessages
    rw [sortDescBy_of_strictIncr _ _ hm]
  have hfil : (pms.filter (fun m => m.conversation == cid)).Pairwise
      (fun x y => x.timestamp < y.timestamp) := hp.filter _
  have hconv : getMessagesForConversation pms cid k =
      (pms.filter (fun m => m.conversation == cid)).reverse.take k := by
    unfold getMessagesForConversation
    rw [sortDescBy_of_strictIncr _ _ hfil]
  refine ⟨?_, ?_, ?_, ?_, ?_⟩
  · rw [hrec]
    simp
  · rw [hrec]
    exact ((List.pairwise_reverse.mpr (hm.imp (fun h => h))).sublist
      (List.take_sublist _ _))
  · rw [hrec, reverse_take_reverse]
  · rw [hconv]
    exact ((List.pairwise_reverse.mpr (hfil.imp (fun h => h))).sublist
      (List.take_sublist _ _))
  · rw [hconv, reverse_take_reverse]

/-- Claim C9 witness: the characterization applied to a concrete two-entry
channel ledger and a concrete private ledger. -/
theorem claim_C9_witness :
    (getRecentMessages
        [⟨0, 1, "a", "x", 0⟩, ⟨1, 1, "a", "y", 1⟩, ⟨2, 1, "a", "z", 2⟩] 2).reverse =
      [⟨1, 1, "a", "y", 1⟩, ⟨2, 1, "a", "z", 2⟩] :=
  (claim_C9 [⟨0, 1, "a", "x", 0⟩, ⟨1, 1, "a", "y", 1⟩, ⟨2, 1, "a", "z", 2⟩]
    [⟨0, 1, 0, "m", 0⟩] 0 2 (by simp) (by simp)).2.2.1

/-! ## Claim C10: default page limit of 50 -/

/-- Claim C10: a missing limit query parameter, or one parsing to NaN
(modelled as none) or to 0, makes both history routes use the default
limit 50, and the returned page then holds at most 50 messages. -/
theorem claim_C10 (db : DB) (userId otherUserId : Nat) :
    jsOrDefault none 50 = 50 ∧
    jsOrDefault (some 0) 50 = 50 ∧
    (getMessagesRoute db none).length ≤ 50 ∧
    (getMessagesRoute db (some 0)).length ≤ 50 ∧
    (∀ msgs, getConversationMessages db userId otherUserId none =
        PmResult.okMessages msgs → msgs.length ≤ 50) ∧
    (∀ msgs, getConversationMessages db userId otherUserId (some 0) =
        PmResult.okMessages msgs → msgs.length ≤ 50) := by
  have hroute : ∀ q : Option Int, jsOrDefault q 50 = 50 →
      (getMessagesRoute db q).length ≤ 50 := by
    intro q hq
    unfold getMessagesRoute getRecentMessages
    rw [hq]
    simp [List.length_take]
  have hconvq : ∀ q : Option Int, jsOrDefault q 50 = 50 → ∀ msgs,
      getConversationMessages db userId otherUserId q =
        PmResult.okMessages msgs → msgs.length ≤ 50 := by
    intro q hq msgs hmsgs
    unfold getConversationMessages at hmsgs
    cases hrel : getExistingRelationship db.requests userId otherUserId with
    | none => simp [hrel] at hmsgs
    | some fr =>
      by_cases hacc : fr.status = FRStatus.accepted
      · cases hconv : convFindBetween db userId otherUserId with
        | none =>
          simp [hrel, hacc, hconv] at hmsgs
          simp [hmsgs]
        | some conv =>
          simp [hrel, hacc, hconv, hq] at hmsgs
          rw [← hmsgs]
          unfold getMessagesForConversation
          simp [List.length_take]
      · simp [hrel, hacc] at hmsgs
  exact ⟨rfl, rfl, hroute none rfl, hroute (some 0) rfl,
    hconvq none rfl, hconvq (some 0) rfl⟩

/-- Claim C10 witness: the conversation-history bound applied at a
concrete friendly state with one stored message and a missing limit. -/
theorem claim_C10_witness :
    ([⟨0, 1, 0, "hello", 2⟩] : List PMsg).length ≤ 50 :=
  (claim_C10 (runOps [1, 2] [Op.send 1 2, Op.accept 2 0, Op.pmsg 1 2 "hello"]) 2 1).2.2.2.2.1
    [⟨0, 1, 0, "hello", 2⟩] (by decide)

/-! ## Claim C2: decline and cancel on non-pending records -/

/-- Claim C2 counterexample: in a reachable state holding an accepted
record between users 1 and 2 (request id 0), decline by the receiver and
cancel by the sender both succeed — overwriting the accepted status —
instead of failing with an InvalidState error and leaving the record
unchanged. -/
theorem claim_C2_counterexample :
    (declineFriendRequest (runOps [1, 2] [Op.send 1 2, Op.accept 2 0]) 2 0).1 =
      FrResult.okMsg ∧
    (declineFriendRequest (runOps [1, 2] [Op.send 1 2, Op.accept 2 0]) 2 0).2.requests =
      [⟨0, 1, 2, FRStatus.declined, 0, 2⟩] ∧
    (cancelFriendRequest (runOps [1, 2] [Op.send 1 2, Op.accept 2 0]) 1 0).1 =
      FrResult.okMsg ∧
    (cancelFriendRequest (runOps [1, 2] [Op.send 1 2, Op.accept 2 0]) 1 0).2.requests =
      [⟨0, 1, 2, FRStatus.cancelled, 0, 2⟩] :=
  ⟨rfl, rfl, rfl, rfl⟩

/-- Claim C2 amended: decline and cancel fail NotFound when the record is
missing, and Forbidden unless the actor is the receiver (decline) or the
sender (cancel); but they perform no pending-status check: whatever the
current status, the authorized actor transitions the record to
declined/cancelled stamping updatedAt. Only accept enforces the
pending-only precondition. -/
theorem claim_C2_amended (db : DB) (u rid0 : Nat) :
    (findRequestById db.requests rid0 = none →
      declineFriendRequest db u rid0 = (FrResult.notFound, db) ∧
      cancelFriendRequest db u rid0 = (FrResult.notFound, db)) ∧
    (∀ q, findRequestById db.requests rid0 = some q →
      (q.receiver ≠ u → declineFriendRequest db u rid0 = (FrResult.forbidden, db)) ∧
      (q.receiver = u → declineFriendRequest db u rid0 =
        (FrResult.okMsg,
         { db with
            requests := saveRequest db.requests
              ({ q with status := FRStatus.declined, updatedAt := db.now }) })) ∧
      (q.sender ≠ u → cancelFriendRequest db u rid0 = (FrResult.forbidden, db)) ∧
      (q.sender = u → cancelFriendRequest db u rid0 =
        (FrResult.okMsg,
         { db with
            requests := saveRequest db.requests
              ({ q with status := FRStatus.cancelled, updatedAt := db.now }) }))) := by
  unfold declineFriendRequest cancelFriendRequest
  constructor
  · intro h
    rw [h]
    exact ⟨rfl, rfl⟩
  · intro q hq
    rw [hq]
    refine ⟨?_, ?_, ?_, ?_⟩ <;> intro h <;> simp [h]

/-- Claim C2 amended witness: declining a pending request by its receiver
at a concrete state. -/
theorem claim_C2_amended_witness :
    declineFriendRequest (runOps [1, 2] [Op.send 1 2]) 2 0 =
      (FrResult.okMsg,
       DB.mk [1, 2] [⟨0, 1, 2, FRStatus.declined, 0, 1⟩] [] [] [] 1 0 0 1) :=
  ((claim_C2_amended (runOps [1, 2] [Op.send 1 2]) 2 0).2
    ⟨0, 1, 2, FRStatus.pending, 0, 0⟩ (by decide)).2.1 (by decide)

/-! ## Claim C3: conflict behaviour of sendRequest -/

/-- Claim C3 counterexample: with a declined record between users 1 and 2
present (a non-deleted state), sendRequest from 2 to 1 does not fail with
a Conflict: it succeeds and creates a second, pending record. -/
theorem claim_C3_counterexample :
    ⟨0, 1, 2, FRStatus.declined, 0, 1⟩ ∈
      (runOps [1, 2] [Op.send 1 2, Op.decline 2 0]).requests ∧
    (sendFriendRequest (runOps [1, 2] [Op.send 1 2, Op.decline 2 0]) 2 1).1 =
      FrResult.ok ⟨1, 2, 1, FRStatus.pending, 2, 2⟩ :=
  ⟨by decide, rfl⟩

/-- Claim C3 amended: sendRequest fails for self requests and unknown
receivers; it fails Conflict only when the first stored relationship
between the pair is pending (distinguishing which side sent it) or
accepted (already friends). A declined or cancelled record does not
conflict at this check: the controller falls through to the save, which
fails with a duplicate-key error exactly when a record with the same
ordered (sender, receiver) pair exists, and otherwise creates and returns
a new pending record attributed to the sender. -/
theorem claim_C3_amended (db : DB) (s r : Nat) :
    (s = r → sendFriendRequest db s r = (FrResult.invalidRequest, db)) ∧
    (s ≠ r → r ∉ db.users → sendFriendRequest db s r = (FrResult.notFound, db)) ∧
    (∀ q, s ≠ r → r ∈ db.users →
      getExistingRelationship db.requests s r = some q →
      ((q.status = FRStatus.pending → q.sender = s →
          sendFriendRequest db s r = (FrResult.requestExistsMine, db)) ∧
       (q.status = FRStatus.pending → q.sender ≠ s →
          sendFriendRequest db s r = (FrResult.requestExistsTheirs, db)) ∧
       (q.status = FRStatus.accepted →
          sendFriendRequest db s r = (FrResult.alreadyFriends, db)) ∧
       (q.status = FRStatus.declined ∨ q.status = FRStatus.cancelled →
          sendFriendRequest db s r = trySaveNewRequest db s r))) ∧
    (s ≠ r → r ∈ db.users → getExistingRelationship db.requests s r = none →
      sendFriendRequest db s r = trySaveNewRequest db s r) ∧
    ((trySaveNewRequest db s r).1 = FrResult.duplicateRequest ↔
      ∃ p ∈ db.requests, p.sender = s ∧ p.receiver = r) ∧
    ((¬ ∃ p ∈ db.requests, p.sender = s ∧ p.receiver = r) →
      trySaveNewRequest db s r =
        (FrResult.ok ⟨db.nextRid, s, r, FRStatus.pending, db.now, db.now⟩,
         { db with
            requests := db.requests ++
              [⟨db.nextRid, s, r, FRStatus.pending, db.now, db.now⟩],
            nextRid := db.nextRid + 1 })) := by
  have hdup : (db.requests.any (fun p => p.sender == s && p.receiver == r)) = true ↔
      ∃ p ∈ db.requests, p.sender = s ∧ p.receiver = r := by
    simp [List.any_eq_true]
  refine ⟨?_, ?_, ?_, ?_, ?_, ?_⟩
  · intro h
    unfold sendFriendRequest
    simp [h]
  · intro hne hr
    unfold sendFriendRequest
    simp only [beq_iff_eq, if_neg hne]
    rw [if_pos (by simp [hr])]
  · intro q hne hr hq
    unfold sendFriendRequest
    simp only [beq_iff_eq, if_neg hne]
    rw [if_neg (by simp [hr]), hq]
    refine ⟨?_, ?_, ?_, ?_⟩
    · intro hst hsend
      simp [hst, hsend]
    · intro hst hsend
      simp [hst, hsend]
    · intro hst
      simp [hst]
    · intro hst
      rcases hst with hst | hst <;> simp [hst]
  · intro hne hr hq
    unfold sendFriendRequest
    simp only [beq_iff_eq, if_neg hne]
    rw [if_neg (by simp [hr]), hq]
  · constructor
    · intro h
      unfold trySaveNewRequest at h
      by_cases hd : db.requests.any (fun p => p.sender == s && p.receiver == r)
      · exact hdup.mp hd
      · rw [if_neg hd] at h
        exact absurd h (by simp)
    · intro h
      unfold trySaveNewRequest
      rw [if_pos (hdup.mpr h)]
  · intro h
    unfold trySaveNewRequest
    rw [if_neg (by simpa using (hdup.not.mpr h))]

/-- Claim C3 amended witness: creating the first request between two users
at the empty store. -/
theorem claim_C3_amended_witness :
    sendFriendRequest (initDB [1, 2]) 1 2 = trySaveNewRequest (initDB [1, 2]) 1 2 :=
  (claim_C3_amended (initDB [1, 2]) 1 2).2.2.2.1 (by decide) (by decide) rfl

/-! ## The store invariant on friend-request collections -/

/-- A status that blocks a new proposal for the pair: pending or accepted. -/
def Live (s : FRStatus) : Prop := s = FRStatus.pending ∨ s = FRStatus.accepted

instance (s : FRStatus) : Decidable (Live s) :=
  inferInstanceAs (Decidable (_ ∨ _))

/-- Two documents concern the same unordered pair of users. -/
def SamePair (q1 q2 : FRequest) : Prop :=
  (q1.sender = q2.sender ∧ q1.receiver = q2.receiver) ∨
  (q1.sender = q2.receiver ∧ q1.receiver = q2.sender)

instance (q1 q2 : FRequest) : Decidable (SamePair q1 q2) :=
  inferInstanceAs (Decidable (_ ∨ _))

/-- Pairwise invariant between two stored documents: distinct generated
ids, distinct ordered (sender, receiver) pairs (the unique index), and at
most one pending-or-accepted document per unordered pair. -/
def ReqRel (q1 q2 : FRequest) : Prop :=
  q1.rid ≠ q2.rid ∧
  ¬(q1.sender = q2.sender ∧ q1.receiver = q2.receiver) ∧
  (SamePair q1 q2 → ¬(Live q1.status ∧ Live q2.status))

instance (q1 q2 : FRequest) : Decidable (ReqRel q1 q2) :=
  inferInstanceAs (Decidable (_ ∧ _ ∧ _))

theorem reqRel_symm : Symmetric ReqRel := by
  intro q1 q2 h
  refine ⟨fun he => h.1 he.symm, fun he => h.2.1 ⟨he.1.symm, he.2.symm⟩, ?_⟩
  intro hsp hl
  have hsp' : SamePair q1 q2 := by
    rcases hsp with ⟨h1, h2⟩ | ⟨h1, h2⟩
    · exact Or.inl ⟨h1.symm, h2.symm⟩
    · exact Or.inr ⟨h2.symm, h1.symm⟩
  exact h.2.2 hsp' ⟨hl.2, hl.1⟩

theorem betweenUsers_iff (q : FRequest) (a b : Nat) :
    betweenUsers q a b = true ↔
      (q.sender = a ∧ q.receiver = b) ∨ (q.sender = b ∧ q.receiver = a) := by
  simp [betweenUsers]

/-- The full store invariant on the friend-request collection: the
pairwise conditions plus no self pairs and id freshness. -/
def GoodReqs (reqs : List FRequest) (bound : Nat) : Prop :=
  reqs.Pairwise ReqRel ∧ ∀ q ∈ reqs, q.sender ≠ q.receiver ∧ q.rid < bound

def GoodDB (db : DB) : Prop := GoodReqs db.requests db.nextRid

theorem goodDB_initDB (users : List Nat) : GoodDB (initDB users) :=
  ⟨List.Pairwise.nil, fun q hq => absurd hq (List.not_mem_nil q)⟩

theorem nodup_of_pairwise_reqRel (l : List FRequest) (h : l.Pairwise ReqRel) :
    l.Nodup :=
  h.imp (fun hrel heq => hrel.1 (congrArg FRequest.rid heq))

/-- In a pairwise-invariant collection, a member sharing the id of the
document found by id is that document. -/
theorem eq_of_mem_of_rid (l : List FRequest) (h : l.Pairwise ReqRel)
    (a q : FRequest) (ha : a ∈ l) (hq : q ∈ l) (hrid : a.rid = q.rid) : a = q := by
  by_cases heq : a = q
  · exact heq
  · exact absurd hrid (h.forall reqRel_symm ha hq heq).1

/-- countP of a list holding exactly one satisfying element. -/
theorem countP_eq_one_of_unique (l : List α) (p : α → Bool) (a : α)
    (hnd : l.Nodup) (ha : a ∈ l) (hpa : p a = true)
    (huniq : ∀ b ∈ l, p b = true → b = a) : l.countP p = 1 := by
  induction l with
  | nil => cases ha
  | cons x l ih =>
    rcases List.nodup_cons.mp hnd with ⟨hx, hnd'⟩
    by_cases hpx : p x = true
    · have hxa : x = a := huniq x (List.mem_cons_self x l) hpx
      rw [List.countP_cons_of_pos _ _ hpx]
      have hzero : l.countP p = 0 := by
        rw [List.countP_eq_zero]
        intro b hb hpb
        have : b = a := huniq b (List.mem_cons_of_mem x hb) hpb
        exact hx (hxa ▸ this ▸ hb)
      rw [hzero]
    · rw [List.countP_cons_of_neg _ _ hpx]
      have hamem : a ∈ l := by
        rcases List.mem_cons.mp ha with rfl | hmem
        · exact absurd hpa hpx
        · exact hmem
      exact ih hnd' hamem (fun b hb hpb => huniq b (List.mem_cons_of_mem x hb) hpb)

/-! ## Preservation of the invariant by every operation -/

theorem getExistingRelationship_some (reqs : List FRequest) (a b : Nat)
    (q : FRequest) (h : getExistingRelationship reqs a b = some q) :
    q ∈ reqs ∧ betweenUsers q a b = true := by
  unfold getExistingRelationship at h
  have h2 := List.find?_some h
  exact ⟨List.mem_of_find?_eq_some h, by simpa using h2⟩

theorem getExistingRelationship_none (reqs : List FRequest) (a b : Nat)
    (h : getExistingRelationship reqs a b = none) :
    ∀ p ∈ reqs, ¬ betweenUsers p a b = true := by
  unfold getExistingRelationship at h
  exact List.find?_eq_none.mp h

theorem goodDB_trySave (db : DB) (s r : Nat) (h : GoodDB db) (hsr : s ≠ r)
    (hfind : ∀ q0, getExistingRelationship db.requests s r = some q0 →
      ¬ Live q0.status) :
    GoodDB (trySaveNewRequest db s r).2 := by
  obtain ⟨h1, h2⟩ := h
  unfold trySaveNewRequest
  cases hdup : db.requests.any (fun p => p.sender == s && p.receiver == r) with
  | true => exact ⟨h1, h2⟩
  | false =>
    have hnodup : ∀ p ∈ db.requests, ¬(p.sender = s ∧ p.receiver = r) := by
      intro p hp hpe
      have hany : db.requests.any (fun p => p.sender == s && p.receiver == r) = true :=
        List.any_eq_true.mpr ⟨p, hp, by simp [hpe.1, hpe.2]⟩
      rw [hany] at hdup
      cases hdup
    simp only [hdup, Bool.false_eq_true, if_false]
    refine ⟨?_, ?_⟩
    · rw [List.pairwise_append]
      refine ⟨h1, List.pairwise_singleton _ _, ?_⟩
      intro p hp fr hfr
      have hfr' : fr = ⟨db.nextRid, s, r, FRStatus.pending, db.now, db.now⟩ :=
        List.mem_singleton.mp hfr
      subst hfr'
      refine ⟨?_, ?_, ?_⟩
      · have := (h2 p hp).2
        simp only [ne_eq]
        omega
      · intro hpe
        exact hnodup p hp ⟨hpe.1, hpe.2⟩
      · intro hsp hlive
        have hps : p.sender = r ∧ p.receiver = s := by
          rcases hsp with ⟨ha, hb⟩ | ⟨ha, hb⟩
          · exact absurd ⟨ha, hb⟩ (hnodup p hp)
          · exact ⟨ha, hb⟩
        have hbet : betweenUsers p s r = true :=
          (betweenUsers_iff p s r).mpr (Or.inr hps)
        cases hq0 : getExistingRelationship db.requests s r with
        | none =>
          exact getExistingRelationship_none db.requests s r hq0 p hp hbet
        | some q0 =>
          have hq0live := hfind q0 hq0
          have hq0bet : betweenUsers q0 s r = true :=
            (getExistingRelationship_some db.requests s r q0 hq0).2
          have hq0mem : q0 ∈ db.requests :=
            (getExistingRelationship_some db.requests s r q0 hq0).1
          have hq0ord : q0.sender = r ∧ q0.receiver = s := by
            rcases (betweenUsers_iff q0 s r).mp hq0bet with hc | hc
            · exact absurd hc (hnodup q0 hq0mem)
            · exact hc
          by_cases hpq : p = q0
          · subst hpq
            exact hq0live hlive.1
          · have hrel := h1.forall reqRel_symm hp hq0mem hpq
            exact hrel.2.1 ⟨hps.1.trans hq0ord.1.symm, hps.2.trans hq0ord.2.symm⟩
    · intro q hq
      rcases List.mem_append.mp hq with hq | hq
      · have := h2 q hq
        exact ⟨this.1, Nat.lt_succ_of_lt this.2⟩
      · have hq' : q = ⟨db.nextRid, s, r, FRStatus.pending, db.now, db.now⟩ :=
          List.mem_singleton.mp hq
        subst hq'
        exact ⟨hsr, Nat.lt_succ_self _⟩

theorem goodDB_send (db : DB) (h : GoodDB db) (s r : Nat) :
    GoodDB (sendFriendRequest db s r).2 := by
  unfold sendFriendRequest
  by_cases hsr : s = r
  · simp [hsr, h]
  · by_cases hu : db.users.contains r
    · have hmem : r ∈ db.users := by simpa using hu
      cases hq : getExistingRelationship db.requests s r with
      | none =>
        have hts := goodDB_trySave db s r h hsr
          (fun q0 hq0 => by rw [hq] at hq0; cases hq0)
        simpa [hsr, hu, hmem, hq] using hts
      | some q =>
        by_cases hp : q.status = FRStatus.pending
        · by_cases hqs : q.sender = s <;> simp [hsr, hu, hmem, hq, hp, hqs, h]
        · by_cases ha : q.status = FRStatus.accepted
          · simp [hsr, hu, hmem, hq, hp, ha, h]
          · have hterm : ¬ Live q.status := fun hl => hl.elim hp ha
            have hts := goodDB_trySave db s r h hsr (fun q0 hq0 => by
              rw [hq] at hq0
              cases hq0
              exact hterm)
            simpa [hsr, hu, hmem, hq, hp, ha] using hts
    · have hmem : r ∉ db.users := by simpa using hu
      simp [hsr, hu, hmem, h]

theorem findRequestById_some (reqs : List FRequest) (rid0 : Nat) (q : FRequest)
    (h : findRequestById reqs rid0 = some q) : q ∈ reqs ∧ q.rid = rid0 := by
  unfold findRequestById at h
  have h2 := List.find?_some h
  exact ⟨List.mem_of_find?_eq_some h, by simpa using h2⟩

theorem goodDB_save (db : DB) (rid0 : Nat) (q q' : FRequest) (h : GoodDB db)
    (hfind : findRequestById db.requests rid0 = some q)
    (hrid : q'.rid = q.rid) (hs : q'.sender = q.sender)
    (hr : q'.receiver = q.receiver)
    (hlive : Live q'.status → Live q.status) :
    GoodDB { db with requests := saveRequest db.requests q' } := by
  obtain ⟨h1, h2⟩ := h
  obtain ⟨hqmem, hqrid⟩ := findRequestById_some db.requests rid0 q hfind
  have huniqrid : ∀ a ∈ db.requests, a.rid = q.rid → a = q :=
    fun a ha hrida => eq_of_mem_of_rid db.requests h1 a q ha hqmem hrida
  refine ⟨?_, ?_⟩
  · unfold saveRequest
    rw [List.pairwise_map]
    refine h1.imp_of_mem ?_
    intro a b ha hb hab
    by_cases hAa : (a.rid == q'.rid) = true
    · have haq : a = q := huniqrid a ha (by rw [← hrid]; simpa using hAa)
      by_cases hAb : (b.rid == q'.rid) = true
      · have hbq : b = q := huniqrid b hb (by rw [← hrid]; simpa using hAb)
        rw [haq, hbq] at hab
        exact absurd rfl hab.1
      · simp only [hAa, hAb, if_pos, if_neg, Bool.false_eq_true, if_false, if_true]
        rw [haq] at hab
        refine ⟨by rw [hrid]; exact hab.1,
          fun he => hab.2.1 ⟨hs.symm.trans he.1, hr.symm.trans he.2⟩, ?_⟩
        intro hsp hl
        have hsp' : SamePair q b := by
          rcases hsp with ⟨x, y⟩ | ⟨x, y⟩
          · exact Or.inl ⟨hs.symm.trans x, hr.symm.trans y⟩
          · exact Or.inr ⟨hs.symm.trans x, hr.symm.trans y⟩
        exact hab.2.2 hsp' ⟨hlive hl.1, hl.2⟩
    · by_cases hAb : (b.rid == q'.rid) = true
      · have hbq : b = q := huniqrid b hb (by rw [← hrid]; simpa using hAb)
        simp only [hAa, hAb, Bool.false_eq_true, if_false, if_true]
        rw [hbq] at hab
        refine ⟨by rw [hrid]; exact hab.1,
          fun he => hab.2.1 ⟨he.1.trans hs, he.2.trans hr⟩, ?_⟩
        intro hsp hl
        have hsp' : SamePair a q := by
          rcases hsp with ⟨x, y⟩ | ⟨x, y⟩
          · exact Or.inl ⟨x.trans hs, y.trans hr⟩
          · exact Or.inr ⟨x.trans hr, y.trans hs⟩
        exact hab.2.2 hsp' ⟨hl.1, hlive hl.2⟩
      · simpa only [hAa, hAb, Bool.false_eq_true, if_false] using hab
  · intro p' hp'
    unfold saveRequest at hp'
    rcases List.mem_map.mp hp' with ⟨p, hp, hfp⟩
    by_cases hAp : (p.rid == q'.rid) = true
    · rw [if_pos hAp] at hfp
      subst hfp
      have hqprop := h2 q hqmem
      exact ⟨fun he => hqprop.1 ((hs.symm.trans he).trans hr),
             by rw [hrid]; exact hqprop.2⟩
    · rw [if_neg hAp] at hfp
      subst hfp
      exact h2 p hp

theorem goodDB_accept (db : DB) (h : GoodDB db) (u rid0 : Nat) :
    GoodDB (acceptFriendRequest db u rid0).2 := by
  unfold acceptFriendRequest
  cases hf : findRequestById db.requests rid0 with
  | none => exact h
  | some q =>
    by_cases hrecv : q.receiver = u
    · by_cases hst : q.status = FRStatus.pending
      · have hsave := goodDB_save db rid0 q
          ({ q with status := FRStatus.accepted, updatedAt := db.now }) h hf
          rfl rfl rfl (fun _ => Or.inl hst)
        simpa [hrecv, hst] using hsave
      · simp [hrecv, hst, h]
    · simp [hrecv, h]

theorem goodDB_decline (db : DB) (h : GoodDB db) (u rid0 : Nat) :
    GoodDB (declineFriendRequest db u rid0).2 := by
  unfold declineFriendRequest
  cases hf : findRequestById db.requests rid0 with
  | none => exact h
  | some q =>
    by_cases hrecv : q.receiver = u
    · have hsave := goodDB_save db rid0 q
        ({ q with status := FRStatus.declined, updatedAt := db.now }) h hf
        rfl rfl rfl (by intro hl; simp [Live] at hl)
      simpa [hrecv] using hsave
    · simp [hrecv, h]

theorem goodDB_cancel (db : DB) (h : GoodDB db) (u rid0 : Nat) :
    GoodDB (cancelFriendRequest db u rid0).2 := by
  unfold cancelFriendRequest
  cases hf : findRequestById db.requests rid0 with
  | none => exact h
  | some q =>
    by_cases hsend : q.sender = u
    · have hsave := goodDB_save db rid0 q
        ({ q with status := FRStatus.cancelled, updatedAt := db.now }) h hf
        rfl rfl rfl (by intro hl; simp [Live] at hl)
      simpa [hsend] using hsave
    · simp [hsend, h]

theorem goodDB_remove (db : DB) (h : GoodDB db) (u f : Nat) :
    GoodDB (removeFriend db u f).2 := by
  unfold removeFriend
  cases hf : db.requests.find? (fun q =>
      (q.sender == u && q.receiver == f && q.status == FRStatus.accepted)
      || (q.sender == f && q.receiver == u && q.status == FRStatus.accepted)) with
  | none => exact h
  | some q =>
    refine ⟨?_, ?_⟩
    · exact List.Pairwise.sublist (List.eraseP_sublist _) h.1
    · intro p hp
      exact h.2 p (List.mem_of_mem_eraseP hp)

theorem sendPrivateMessage_requests (db : DB) (s r : Nat) (c : String) :
    (sendPrivateMessage db s r c).2.1.requests = db.requests ∧
    (sendPrivateMessage db s r c).2.1.nextRid = db.nextRid := by
  unfold sendPrivateMessage
  by_cases hc : (c == "") = true
  · simp [hc]
  · cases hrel : getExistingRelationship db.requests s r with
    | none => simp [hc, hrel]
    | some q =>
      by_cases hacc : (q.status == FRStatus.accepted) = true
      · unfold convFindOrCreate
        cases hcv : db.convs.find?
            (fun cv => cv.pLow == min s r && cv.pHigh == max s r) with
        | none => simp [hc, hrel, hacc, hcv]
        | some cv => simp [hc, hrel, hacc, hcv]
      · simp [hc, hrel, hacc]

theorem goodDB_applyOp (db : DB) (op : Op) (h : GoodDB db) :
    GoodDB (applyOp db op) := by
  cases op with
  | send s r => exact goodDB_send db h s r
  | accept u rid0 => exact goodDB_accept db h u rid0
  | decline u rid0 => exact goodDB_decline db h u rid0
  | cancel u rid0 => exact goodDB_cancel db h u rid0
  | unfriend u f => exact goodDB_remove db h u f
  | pmsg s r c =>
    have hreq := sendPrivateMessage_requests db s r c
    show GoodReqs (sendPrivateMessage db s r c).2.1.requests
      (sendPrivateMessage db s r c).2.1.nextRid
    rw [hreq.1, hreq.2]
    exact h

theorem goodDB_foldl (ops : List Op) :
    ∀ db, GoodDB db → GoodDB (ops.foldl applyOp db) := by
  induction ops with
  | nil => exact fun db h => h
  | cons op ops ih => exact fun db h => ih (applyOp db op) (goodDB_applyOp db op h)

/-- Every reachable store state satisfies the invariant. -/
theorem reachable_goodDB (db : DB) (h : Reachable db) : GoodDB db := by
  obtain ⟨users, ops, rfl⟩ := h
  exact goodDB_foldl ops (initDB users) (goodDB_initDB users)

/-! ## Claim C1: uniqueness of the relationship record per pair -/

/-- Claim C1 counterexample: after send(1,2), decline by 2, send(2,1), the
store holds two FriendRequest records for the unordered pair 1,2 — the
reverse-direction sendRequest after a decline creates a second record,
because the unique index covers only the ordered pair and the conflict
check lets declined records fall through. -/
theorem claim_C1_counterexample :
    (runOps [1, 2] [Op.send 1 2, Op.decline 2 0, Op.send 2 1]).requests =
      [⟨0, 1, 2, FRStatus.declined, 0, 1⟩, ⟨1, 2, 1, FRStatus.pending, 2, 2⟩] ∧
    (runOps [1, 2] [Op.send 1 2, Op.decline 2 0, Op.send 2 1]).requests.countP
      (fun q => betweenUsers q 1 2) = 2 :=
  ⟨rfl, rfl⟩

/-- Claim C1 amended: in every reachable store state the records are
pairwise invariant: distinct generated ids, at most one record per
ordered (sender, receiver) pair, and at most one pending-or-accepted
record per unordered pair. A declined or cancelled record can coexist
with one reverse-direction record of the same unordered pair. -/
theorem claim_C1_amended (db : DB) (h : Reachable db) :
    db.requests.Pairwise ReqRel :=
  (reachable_goodDB db h).1

/-- Claim C1 amended witness: the invariant at the two-record state of the
counterexample run. -/
theorem claim_C1_amended_witness :
    (runOps [1, 2] [Op.send 1 2, Op.decline 2 0, Op.send 2 1]).requests.Pairwise
      ReqRel :=
  claim_C1_amended _ ⟨[1, 2], [Op.send 1 2, Op.decline 2 0, Op.send 2 1], rfl⟩

/-! ## Claim C5: accept and the friends listing -/

/-- In an invariant-satisfying state holding an accepted record between u
and v, the friends listing of u names v exactly once. -/
theorem getFriends_count (db : DB) (h : GoodDB db) (u v : Nat) (q : FRequest)
    (hq : q ∈ db.requests) (hacc : q.status = FRStatus.accepted)
    (hbet : (q.sender = u ∧ q.receiver = v) ∨ (q.sender = v ∧ q.receiver = u))
    (huv : u ≠ v) :
    (getFriends db u).count v = 1 := by
  have hcount : (getFriends db u).count v =
      db.requests.countP (fun x =>
        ((if x.sender == u then x.receiver else x.sender) == v)
        && ((x.sender == u || x.receiver == u) && x.status == FRStatus.accepted)) := by
    show (getFriends db u).countP (· == v) = _
    unfold getFriends findFriends
    rw [List.countP_map, (sortDescBy_perm _ _).countP_eq, List.countP_filter]
    rfl
  rw [hcount]
  refine countP_eq_one_of_unique db.requests _ q
    (nodup_of_pairwise_reqRel _ h.1) hq ?_ ?_
  · rcases hbet with ⟨h1, h2⟩ | ⟨h1, h2⟩
    · simp [h1, h2, hacc]
    · have hne : q.sender ≠ u := by
        rw [h1]
        exact fun hh => huv hh.symm
      simp [h1, h2, hacc, hne]
      exact fun hh => hh.symm
  · intro b hb hpb
    have hpb' : (if b.sender == u then b.receiver else b.sender) = v ∧
        (b.sender = u ∨ b.receiver = u) ∧ b.status = FRStatus.accepted := by
      simpa using hpb
    obtain ⟨hproj, hinv, hbacc⟩ := hpb'
    have hbpat : (b.sender = u ∧ b.receiver = v) ∨
        (b.sender = v ∧ b.receiver = u) := by
      by_cases hbu : b.sender = u
      · rw [if_pos (by simpa using hbu)] at hproj
        exact Or.inl ⟨hbu, hproj⟩
      · rw [if_neg (by simpa using hbu)] at hproj
        rcases hinv with hiu | hiu
        · exact absurd hiu hbu
        · exact Or.inr ⟨hproj, hiu⟩
    have hsp : SamePair b q := by
      rcases hbpat with ⟨x1, x2⟩ | ⟨x1, x2⟩ <;> rcases hbet with ⟨y1, y2⟩ | ⟨y1, y2⟩
      · exact Or.inl ⟨x1.trans y1.symm, x2.trans y2.symm⟩
      · exact Or.inr ⟨x1.trans y2.symm, x2.trans y1.symm⟩
      · exact Or.inr ⟨x1.trans y2.symm, x2.trans y1.symm⟩
      · exact Or.inl ⟨x1.trans y1.symm, x2.trans y2.symm⟩
    by_cases hbq : b = q
    · exact hbq
    · have hrel := h.1.forall reqRel_symm hb hq hbq
      exact absurd ⟨Or.inr hbacc, Or.inr hacc⟩ (hrel.2.2 hsp)

/-- Claim C5: accept fails NotFound when the record is missing, Forbidden
when the actor is not the receiver, InvalidState when the record is not
pending, and otherwise transitions the record to accepted stamping
updatedAt with the current time; afterwards the friends listing of each of
the two parties includes the other exactly once. -/
theorem claim_C5 (db : DB) (hdb : Reachable db) (u rid0 : Nat) :
    (findRequestById db.requests rid0 = none →
      acceptFriendRequest db u rid0 = (FrResult.notFound, db)) ∧
    (∀ q, findRequestById db.requests rid0 = some q →
      (q.receiver ≠ u → acceptFriendRequest db u rid0 = (FrResult.forbidden, db)) ∧
      (q.receiver = u → q.status ≠ FRStatus.pending →
         acceptFriendRequest db u rid0 = (FrResult.invalidStatus, db)) ∧
      (q.receiver = u → q.status = FRStatus.pending →
         acceptFriendRequest db u rid0 =
           (FrResult.ok ({ q with status := FRStatus.accepted, updatedAt := db.now }),
            { db with
               requests := saveRequest db.requests
                 ({ q with status := FRStatus.accepted, updatedAt := db.now }) }) ∧
         (getFriends (acceptFriendRequest db u rid0).2 u).count q.sender = 1 ∧
         (getFriends (acceptFriendRequest db u rid0).2 q.sender).count u = 1)) := by
  have hgood := reachable_goodDB db hdb
  refine ⟨?_, ?_⟩
  · intro h
    unfold acceptFriendRequest
    rw [h]
  · intro q hf
    obtain ⟨hqmem, hqrid⟩ := findRequestById_some db.requests rid0 q hf
    refine ⟨?_, ?_, ?_⟩
    · intro hne
      unfold acceptFriendRequest
      rw [hf]
      simp [hne]
    · intro hrecv hst
      unfold acceptFriendRequest
      rw [hf]
      simp [hrecv, hst]
    · intro hrecv hst
      have heq : acceptFriendRequest db u rid0 =
          (FrResult.ok ({ q with status := FRStatus.accepted, updatedAt := db.now }),
           { db with
              requests := saveRequest db.requests
                ({ q with status := FRStatus.accepted, updatedAt := db.now }) }) := by
        unfold acceptFriendRequest
        rw [hf]
        simp [hrecv, hst]
      have hgood' : GoodDB (acceptFriendRequest db u rid0).2 :=
        goodDB_accept db hgood u rid0
      have hne : q.sender ≠ u := by
        have := (hgood.2 q hqmem).1
        rw [hrecv] at this
        exact this
      have hmem' : ({ q with status := FRStatus.accepted, updatedAt := db.now }
          : FRequest) ∈ (acceptFriendRequest db u rid0).2.requests := by
        rw [heq]
        show _ ∈ saveRequest db.requests _
        unfold saveRequest
        have hfq := List.mem_map_of_mem
          (fun p => if p.rid == q.rid then
            ({ q with status := FRStatus.accepted, updatedAt := db.now } : FRequest)
            else p) hqmem
        simpa using hfq
      refine ⟨heq, ?_, ?_⟩
      · exact getFriends_count (acceptFriendRequest db u rid0).2 hgood' u q.sender
          ({ q with status := FRStatus.accepted, updatedAt := db.now }) hmem' rfl
          (Or.inr ⟨rfl, hrecv⟩) (fun hh => hne hh.symm)
      · exact getFriends_count (acceptFriendRequest db u rid0).2 hgood' q.sender u
          ({ q with status := FRStatus.accepted, updatedAt := db.now }) hmem' rfl
          (Or.inl ⟨rfl, hrecv⟩) hne

/-- Claim C5 witness: accepting the pending request of the concrete
one-request state, with the resulting mutual friends listings. -/
theorem claim_C5_witness :
    acceptFriendRequest (runOps [1, 2] [Op.send 1 2]) 2 0 =
      (FrResult.ok ⟨0, 1, 2, FRStatus.accepted, 0, 1⟩,
       DB.mk [1, 2] [⟨0, 1, 2, FRStatus.accepted, 0, 1⟩] [] [] [] 1 0 0 1) ∧
    (getFriends (acceptFriendRequest (runOps [1, 2] [Op.send 1 2]) 2 0).2 2).count 1 = 1 ∧
    (getFriends (acceptFriendRequest (runOps [1, 2] [Op.send 1 2]) 2 0).2 1).count 2 = 1 :=
  ((claim_C5 (runOps [1, 2] [Op.send 1 2]) ⟨[1, 2], [Op.send 1 2], rfl⟩ 2 0).2
    ⟨0, 1, 2, FRStatus.pending, 0, 0⟩ (by decide)).2.2 (by decide) (by decide)

/-! ## Claim C4: friend gating of private messages -/

/-- Claim C4 counterexample: reachable state with a stale declined record
(1,2) followed by an accepted record (2,1). The receiver (user 1) accepted
the pending request from the sender (user 2), yet the identical
postPrivateMessage call from 2 to 1 still fails Forbidden on both entry
points, because the friendship check reads only the first stored record
between the pair, the stale declined one. -/
theorem claim_C4_counterexample :
    ⟨1, 2, 1, FRStatus.accepted, 2, 3⟩ ∈
      (runOps [1, 2] [Op.send 1 2, Op.decline 2 0, Op.send 2 1, Op.accept 1 1]).requests ∧
    (sendPrivateMessage
      (runOps [1, 2] [Op.send 1 2, Op.decline 2 0, Op.send 2 1, Op.accept 1 1])
      2 1 "hi").1 = PmResult.forbidden ∧
    (handleSendPrivateMessage
      (runOps [1, 2] [Op.send 1 2, Op.decline 2 0, Op.send 2 1, Op.accept 1 1])
      2 1 "hi").2 = [SockEmit.errToSocket "You can only message your friends"] :=
  ⟨by decide, rfl, rfl⟩

/-- Claim C4 amended: on both entry points, a private send persists
nothing and fails Forbidden whenever no record between the pair has
status accepted — and more generally whenever the first stored record
between the pair (Mongo natural order) is not accepted; when that first
record is accepted, the call succeeds and persists the message. After an
accept, the identical call therefore succeeds provided the accepted
record is the pair's first record (in particular its only one); a stale
declined or cancelled record stored earlier keeps the call Forbidden. -/
theorem claim_C4_amended (db : DB) (s r : Nat) (content : String)
    (hc : content ≠ "") :
    ((∀ p ∈ db.requests, betweenUsers p s r = true → p.status ≠ FRStatus.accepted) →
      sendPrivateMessage db s r content = (PmResult.forbidden, db, []) ∧
      handleSendPrivateMessage db s r content =
        (db, [SockEmit.errToSocket "You can only message your friends"])) ∧
    (∀ q, getExistingRelationship db.requests s r = some q →
      q.status ≠ FRStatus.accepted →
      sendPrivateMessage db s r content = (PmResult.forbidden, db, []) ∧
      handleSendPrivateMessage db s r content =
        (db, [SockEmit.errToSocket "You can only message your friends"])) ∧
    (∀ q, getExistingRelationship db.requests s r = some q →
      q.status = FRStatus.accepted →
      (sendPrivateMessage db s r content).1 =
        PmResult.ok ⟨db.nextMid, s, (convFindOrCreate db s r).1.cid, content, db.now⟩ ∧
      (⟨db.nextMid, s, (convFindOrCreate db s r).1.cid, content, db.now⟩ : PMsg) ∈
        (sendPrivateMessage db s r content).2.1.pmsgs ∧
      SockEmit.privToRoom r
          ⟨db.nextMid, s, (convFindOrCreate db s r).1.cid, content, db.now⟩ ∈
        (handleSendPrivateMessage db s r content).2 ∧
      (⟨db.nextMid, s, (convFindOrCreate db s r).1.cid, content, db.now⟩ : PMsg) ∈
        (handleSendPrivateMessage db s r content).1.pmsgs) := by
  have hc' : (content == "") = false := by
    simp only [beq_eq_false_iff_ne, ne_eq]
    exact hc
  have hsingle : ∀ q, getExistingRelationship db.requests s r = some q →
      q.status ≠ FRStatus.accepted →
      sendPrivateMessage db s r content = (PmResult.forbidden, db, []) ∧
      handleSendPrivateMessage db s r content =
        (db, [SockEmit.errToSocket "You can only message your friends"]) := by
    intro q hrel hner
    have hf : (q.status == FRStatus.accepted) = false := by
      simpa using hner
    unfold sendPrivateMessage handleSendPrivateMessage
    rw [hc', hrel]
    simp [hf]
  refine ⟨?_, hsingle, ?_⟩
  · intro hnone
    cases hrel : getExistingRelationship db.requests s r with
    | none =>
      unfold sendPrivateMessage handleSendPrivateMessage
      rw [hc', hrel]
      simp
    | some q =>
      obtain ⟨hmem, hbet⟩ := getExistingRelationship_some db.requests s r q hrel
      exact hsingle q hrel (hnone q hmem hbet)
  · intro q hrel hacc
    have hnow : (convFindOrCreate db s r).2.now = db.now := by
      unfold convFindOrCreate
      cases h : db.convs.find? (fun c => c.pLow == min s r && c.pHigh == max s r) <;>
        simp [h]
    have hmid : (convFindOrCreate db s r).2.nextMid = db.nextMid := by
      unfold convFindOrCreate
      cases h : db.convs.find? (fun c => c.pLow == min s r && c.pHigh == max s r) <;>
        simp [h]
    unfold sendPrivateMessage handleSendPrivateMessage
    rw [hc', hrel]
    simp [hacc, hnow, hmid]

/-- Claim C4 amended witness: a successful send at the concrete friendly
state whose only record is the accepted one. -/
theorem claim_C4_amended_witness :
    (sendPrivateMessage (runOps [1, 2] [Op.send 1 2, Op.accept 2 0]) 1 2 "hi").1 =
      PmResult.ok ⟨0, 1, 0, "hi", 2⟩ :=
  ((claim_C4_amended (runOps [1, 2] [Op.send 1 2, Op.accept 2 0]) 1 2 "hi"
    (by decide)).2.2 ⟨0, 1, 2, FRStatus.accepted, 0, 1⟩ (by decide) rfl).1

/-! ## Claim C6: removeFriend and the conversation history -/

/-- Claim C6 counterexample: after the end-to-end scenario send, accept,
one private message, removeFriend, the conversation and the message are
still stored unchanged, but the conversation-history query between the two
ex-friends returns Forbidden instead of the history. -/
theorem claim_C6_counterexample :
    (runOps [1, 2] [Op.send 1 2, Op.accept 2 0, Op.pmsg 1 2 "hello",
      Op.unfriend 1 2]).pmsgs = [⟨0, 1, 0, "hello", 2⟩] ∧
    (runOps [1, 2] [Op.send 1 2, Op.accept 2 0, Op.pmsg 1 2 "hello",
      Op.unfriend 1 2]).convs = [⟨0, 1, 2, some 0, 2⟩] ∧
    getConversationMessages
      (runOps [1, 2] [Op.send 1 2, Op.accept 2 0, Op.pmsg 1 2 "hello",
        Op.unfriend 1 2]) 2 1 none = PmResult.forbidden :=
  ⟨rfl, rfl, rfl⟩

/-- The conversation-history query is Forbidden whenever the state holds
no accepted record between the two users. -/
theorem getConversationMessages_forbidden (db : DB) (u o : Nat)
    (limitQ : Option Int)
    (h : ∀ p ∈ db.requests, betweenUsers p u o = true →
      p.status ≠ FRStatus.accepted) :
    getConversationMessages db u o limitQ = PmResult.forbidden := by
  unfold getConversationMessages
  cases hrel : getExistingRelationship db.requests u o with
  | none => simp [hrel]
  | some q =>
    obtain ⟨hmem, hbet⟩ := getExistingRelationship_some db.requests u o q hrel
    have := h q hmem hbet
    simp [hrel, this]

/-- Claim C6 amended: removeFriend deletes only the matched accepted
friend-request record — the conversations, private messages and channel
messages collections are untouched, so the Conversation and its history
remain stored — but the conversation-history endpoint itself requires
friendship, so once no accepted record remains between the two users the
history query returns Forbidden rather than the stored messages. -/
theorem claim_C6_amended (db : DB) (u f : Nat) :
    (removeFriend db u f).2.convs = db.convs ∧
    (removeFriend db u f).2.pmsgs = db.pmsgs ∧
    (removeFriend db u f).2.chanMsgs = db.chanMsgs ∧
    (removeFriend db u f).2.users = db.users ∧
    (∀ q, db.requests.find? (fun q =>
        (q.sender == u && q.receiver == f && q.status == FRStatus.accepted)
        || (q.sender == f && q.receiver == u && q.status == FRStatus.accepted)) =
          some q →
      (removeFriend db u f).2.requests =
        db.requests.eraseP (fun p => p.rid == q.rid)) ∧
    (∀ o, (∀ p ∈ (removeFriend db u f).2.requests, betweenUsers p u o = true →
        p.status ≠ FRStatus.accepted) →
      getConversationMessages (removeFriend db u f).2 u o none =
        PmResult.forbidden) := by
  have hcases : ∀ X : DB, X = (removeFriend db u f).2 →
      X.convs = db.convs ∧ X.pmsgs = db.pmsgs ∧ X.chanMsgs = db.chanMsgs ∧
      X.users = db.users := by
    intro X hX
    subst hX
    unfold removeFriend
    cases hf : db.requests.find? (fun q =>
        (q.sender == u && q.receiver == f && q.status == FRStatus.accepted)
        || (q.sender == f && q.receiver == u && q.status == FRStatus.accepted)) with
    | none => exact ⟨rfl, rfl, rfl, rfl⟩
    | some q => exact ⟨rfl, rfl, rfl, rfl⟩
  obtain ⟨hcv, hpm, hcm, hus⟩ := hcases _ rfl
  refine ⟨hcv, hpm, hcm, hus, ?_, ?_⟩
  · intro q hfq
    unfold removeFriend
    rw [hfq]
  · intro o ho
    exact getConversationMessages_forbidden (removeFriend db u f).2 u o none ho

/-- Claim C6 amended witness: the Forbidden history query right after a
concrete removeFriend, on the state of the counterexample scenario. -/
theorem claim_C6_amended_witness :
    getConversationMessages
      (removeFriend (runOps [1, 2] [Op.send 1 2, Op.accept 2 0, Op.pmsg 1 2 "hello"])
        1 2).2 1 2 none = PmResult.forbidden :=
  (claim_C6_amended (runOps [1, 2] [Op.send 1 2, Op.accept 2 0, Op.pmsg 1 2 "hello"])
    1 2).2.2.2.2.2 2 (by decide)

end ServerSide
